import Mathlib

/-!
Verification of the TreeTagger subprocess adapter
(src/treetagger-python/treetagger3.py).

The development shallowly embeds the adapter: Python strings are `List Char`,
Python bytes are `List Nat` (each element a byte value), fallible Python code
returns `Except PyError`, and the external child process is an explicit
parameter `proc : SpawnCall → List Nat → ProcResult` mapping the spawn
arguments and the bytes written to its standard input to its observable result
(standard output, standard error, exit status).
-/

/-! ### Python string primitives -/

/-- Python's notion of a whitespace character for `str.strip` / `str.isspace`:
the Unicode whitespace set (ASCII control whitespace 0x09–0x0D, the
separators 0x1C–0x1F, space, NEL, NBSP, and the Unicode space/separator
code points). -/
def isPySpace (c : Char) : Bool :=
  decide ((9 ≤ c.toNat ∧ c.toNat ≤ 13) ∨ (28 ≤ c.toNat ∧ c.toNat ≤ 31) ∨
    c.toNat = 32 ∨ c.toNat = 133 ∨ c.toNat = 160 ∨ c.toNat = 5760 ∨
    (8192 ≤ c.toNat ∧ c.toNat ≤ 8202) ∨ c.toNat = 8232 ∨ c.toNat = 8233 ∨
    c.toNat = 8239 ∨ c.toNat = 8287 ∨ c.toNat = 12288)

/-- Python `s.strip()`: remove all leading and all trailing whitespace. -/
def pyStrip (s : List Char) : List Char :=
  (((s.dropWhile isPySpace).reverse).dropWhile isPySpace).reverse

/-- Python `s.split(sep)` for a one-character separator: split on every
occurrence of `sep`, keeping empty pieces; the empty string yields `[[]]`. -/
def pySplit (sep : Char) : List Char → List (List Char)
  | [] => [[]]
  | c :: rest =>
    if c = sep then [] :: pySplit sep rest
    else
      match pySplit sep rest with
      | [] => [[c]]
      | h :: t => (c :: h) :: t

/-- Python `sep.join(xs)` for a one-character separator. -/
def pyJoin (sep : Char) : List (List Char) → List Char
  | [] => []
  | [x] => x
  | x :: y :: ys => x ++ sep :: pyJoin sep (y :: ys)

/-! ### Codecs (Python `str.encode` / `bytes.decode` for the two charsets the
adapter's language table knows: utf-8 and latin-1). -/

/-- UTF-8 encoding of one Unicode scalar value. -/
def utf8EncodeChar (n : Nat) : List Nat :=
  if n < 128 then [n]
  else if n < 2048 then [192 + n / 64, 128 + n % 64]
  else if n < 65536 then [224 + n / 4096, 128 + (n / 64) % 64, 128 + n % 64]
  else [240 + n / 262144, 128 + (n / 4096) % 64, 128 + (n / 64) % 64, 128 + n % 64]

/-- UTF-8 encoding of a string. -/
def utf8Encode (s : List Char) : List Nat :=
  (s.map (fun c => utf8EncodeChar c.toNat)).flatten

/-- Continuation-byte test for UTF-8 decoding. -/
def utf8Cont (b : Nat) : Bool := decide (128 ≤ b ∧ b ≤ 191)

/-- Constraint on the second byte of a three-byte UTF-8 sequence (rejects
overlong encodings and surrogates, as Python's strict utf-8 codec does). -/
def utf8Cont3 (b b1 : Nat) : Bool :=
  if b = 224 then decide (160 ≤ b1 ∧ b1 ≤ 191)
  else if b = 237 then decide (128 ≤ b1 ∧ b1 ≤ 159)
  else utf8Cont b1

/-- Constraint on the second byte of a four-byte UTF-8 sequence (rejects
overlong encodings and code points above 0x10FFFF). -/
def utf8Cont4 (b b1 : Nat) : Bool :=
  if b = 240 then decide (144 ≤ b1 ∧ b1 ≤ 191)
  else if b = 244 then decide (128 ≤ b1 ∧ b1 ≤ 143)
  else utf8Cont b1

/-- Strict UTF-8 decoding, `none` on any invalid sequence (Python's strict
utf-8 codec raises UnicodeDecodeError there). -/
def utf8Decode : List Nat → Option (List Char)
  | [] => some []
  | b :: rest =>
    if b ≤ 127 then
      match utf8Decode rest with
      | some s => some (Char.ofNat b :: s)
      | none => none
    else if 194 ≤ b ∧ b ≤ 223 then
      match rest with
      | b1 :: rest1 =>
        if utf8Cont b1 then
          match utf8Decode rest1 with
          | some s => some (Char.ofNat ((b - 192) * 64 + (b1 - 128)) :: s)
          | none => none
        else none
      | [] => none
    else if 224 ≤ b ∧ b ≤ 239 then
      match rest with
      | b1 :: b2 :: rest2 =>
        if utf8Cont3 b b1 && utf8Cont b2 then
          match utf8Decode rest2 with
          | some s =>
            some (Char.ofNat ((b - 224) * 4096 + (b1 - 128) * 64 + (b2 - 128)) :: s)
          | none => none
        else none
      | _ => none
    else if 240 ≤ b ∧ b ≤ 244 then
      match rest with
      | b1 :: b2 :: b3 :: rest3 =>
        if utf8Cont4 b b1 && utf8Cont b2 && utf8Cont b3 then
          match utf8Decode rest3 with
          | some s =>
            some (Char.ofNat ((b - 240) * 262144 + (b1 - 128) * 4096 +
              (b2 - 128) * 64 + (b3 - 128)) :: s)
          | none => none
        else none
      | _ => none
    else none

/-- Latin-1 encoding: only code points below 256 are encodable. -/
def latin1Encode (s : List Char) : Option (List Nat) :=
  if s.all (fun c => decide (c.toNat < 256)) then some (s.map Char.toNat)
  else none

/-- Latin-1 decoding: every byte maps to the character of the same code
point. -/
def latin1Decode (bs : List Nat) : Option (List Char) :=
  if bs.all (fun b => decide (b < 256)) then some (bs.map Char.ofNat)
  else none

/-! ### Python error values the adapter can raise -/

/-- The Python exception classes reachable from the adapter's code paths.
`oSError` models the call-time failure path (source lines 149-151): the code
prints the captured standard-error bytes and raises `OSError`; the surfaced
standard-error diagnostics are attached here as the error's payload. -/
inductive PyError
  | lookupError
  | typeError
  | attributeError
  | unicodeEncodeError
  | unicodeDecodeError
  | oSError (stderr : List Nat)
deriving DecidableEq

/-- Decidable equality for `Except`, so that concrete runs of the adapter can
be settled by `decide`. -/
instance {ε α : Type} [DecidableEq ε] [DecidableEq α] : DecidableEq (Except ε α) :=
  fun a b =>
  match a, b with
  | Except.ok x, Except.ok y =>
    if h : x = y then Decidable.isTrue (by rw [h])
    else Decidable.isFalse (by intro hc; cases hc; exact h rfl)
  | Except.ok _, Except.error _ => Decidable.isFalse (by intro hc; cases hc)
  | Except.error _, Except.ok _ => Decidable.isFalse (by intro hc; cases hc)
  | Except.error x, Except.error y =>
    if h : x = y then Decidable.isTrue (by rw [h])
    else Decidable.isFalse (by intro hc; cases hc; exact h rfl)

/-- Python `s.encode(codec)` for the codec names the adapter stores. An
unknown codec name is a `LookupError`, an unencodable character a
`UnicodeEncodeError`. -/
def pyEncode (codec : List Char) (s : List Char) : Except PyError (List Nat) :=
  if codec = "utf-8".toList then Except.ok (utf8Encode s)
  else if codec = "latin-1".toList then
    match latin1Encode s with
    | some bs => Except.ok bs
    | none => Except.error PyError.unicodeEncodeError
  else Except.error PyError.lookupError

/-- Python `bytes.decode(codec)` for the codec names the adapter stores. -/
def pyDecode (codec : List Char) (bs : List Nat) : Except PyError (List Char) :=
  if codec = "utf-8".toList then
    match utf8Decode bs with
    | some s => Except.ok s
    | none => Except.error PyError.unicodeDecodeError
  else if codec = "latin-1".toList then
    match latin1Decode bs with
    | some s => Except.ok s
    | none => Except.error PyError.unicodeDecodeError
  else Except.error PyError.lookupError

/-- A Python value that is either a `str` or a `bytes` object. -/
inductive PyStrOrBytes
  | str (s : List Char)
  | bytes (b : List Nat)
deriving DecidableEq

/-- Source lines 17-20 (`tUoB3`): if the object is a `str`, `bytes` or
`bytearray`, rebuild it with `str(obj, encoding)`. On a `bytes` object that
decodes with the given codec; on a `str` object Python raises
`TypeError: decoding str is not supported`. The source's default for
`encoding` is `'utf-8'`; callers below pass it explicitly. -/
def tUoB3 (obj : PyStrOrBytes) (encoding : List Char) : Except PyError (List Char) :=
  match obj with
  | PyStrOrBytes.str _ => Except.error PyError.typeError
  | PyStrOrBytes.bytes b => pyDecode encoding b

/-! ### The adapter -/

/-- Source lines 25-27 (`_treetagger_languages`): the fixed table mapping each
supported encoding to the list of languages registered under it; `none` for an
encoding that is not a key of the table. -/
def treetagger_languages (encoding : List Char) : Option (List (List Char)) :=
  if encoding = "latin-1".toList then
    some (["latin", "latinIT", "mongolian", "swahili"].map String.toList)
  else if encoding = "utf-8".toList then
    some (["bulgarian", "dutch", "english", "estonian", "finnish", "french",
      "galician", "german", "italian", "polish", "russian", "slovak",
      "slovak2", "spanish"].map String.toList)
  else none

/-- The adapter state stored by `__init__` (source lines 101-121): the
resolved binary path (`self._treetagger_bin`), the configured encoding
(`self._encoding`) and the optional abbreviation-list path
(`self._abbr_list`). -/
structure TreeTagger where
  treetagger_bin : List Char
  encoding : List Char
  abbr_list : Option (List Char)
deriving DecidableEq

/-- Source lines 82-121 (`TreeTagger.__init__`). `fb` models nltk's
`find_binary` as an environment parameter: given the binary name and the
caller-supplied `path_to_home` it yields the resolved path, or `none` when
the binary cannot be located anywhere (in which case `find_binary` raises
`LookupError`). Construction launches no child process: the only process
hook in this development is the `proc` parameter of `tag`, which `init`
never receives. If the `(encoding, language)` pair is not in the fixed
table the code raises `LookupError` (line 112) before `find_binary` is
reached. -/
def TreeTagger.init (fb : List Char → Option (List Char) → Option (List Char))
    (path_to_home : Option (List Char)) (language : List Char)
    (encoding : List Char) (abbreviation_list : Option (List Char)) :
    Except PyError TreeTagger :=
  match treetagger_languages encoding with
  | some langs =>
    if language ∈ langs then
      let enc := if encoding = "latin-1".toList then "latin-1".toList else encoding
      match fb ("tree-tagger-".toList ++ language) path_to_home with
      | some path => Except.ok ⟨path, enc, abbreviation_list⟩
      | none => Except.error PyError.lookupError
    else Except.error PyError.lookupError
  | none => Except.error PyError.lookupError

/-- The input accepted by `tag` (source lines 123-133): a Python list of
token strings, a single string, or an already-encoded bytes object. -/
inductive PyInput
  | tokens (xs : List (List Char))
  | text (s : List Char)
  | raw (b : List Nat)

/-- Source lines 130-133: a list input is joined with newline separators,
any other input is used as-is. -/
def TreeTagger.tagJoined (_tt : TreeTagger) (sentences : PyInput) : PyStrOrBytes :=
  match sentences with
  | PyInput.tokens xs => PyStrOrBytes.str (pyJoin '\n' xs)
  | PyInput.text s => PyStrOrBytes.str s
  | PyInput.raw b => PyStrOrBytes.bytes b

/-- Source lines 127-136: the value passed to `communicate` — a string input
is encoded with the configured encoding when that encoding is truthy
(non-empty), otherwise left as a string; a bytes input passes through
unchanged. -/
def TreeTagger.tagEncoded (tt : TreeTagger) (sentences : PyInput) :
    Except PyError PyStrOrBytes :=
  match tt.tagJoined sentences with
  | PyStrOrBytes.str s =>
    if tt.encoding = [] then Except.ok (PyStrOrBytes.str s)
    else (pyEncode tt.encoding s).map PyStrOrBytes.bytes
  | PyStrOrBytes.bytes b => Except.ok (PyStrOrBytes.bytes b)

/-- How each of the child's standard streams is wired at spawn time. -/
inductive StdWiring
  | pipe
  | inherit
deriving DecidableEq

/-- The observable arguments of the `Popen` call (source lines 139-144). -/
structure SpawnCall where
  args : List (List Char)
  shell : Bool
  stdin : StdWiring
  stdout : StdWiring
  stderr : StdWiring
deriving DecidableEq

/-- Source lines 139-144: the `Popen` invocation — just the binary path when
no abbreviation list was configured, the binary path followed by `-a` and the
abbreviation-list path when one was; `shell=False` and all three standard
streams as pipes in both branches. -/
def TreeTagger.tagSpawn (tt : TreeTagger) : SpawnCall :=
  match tt.abbr_list with
  | none => ⟨[tt.treetagger_bin], false, StdWiring.pipe, StdWiring.pipe, StdWiring.pipe⟩
  | some a =>
    ⟨[tt.treetagger_bin, "-a".toList, a], false, StdWiring.pipe, StdWiring.pipe,
      StdWiring.pipe⟩

/-- What `communicate` returns for one child process run: the collected
standard output, the collected standard-error bytes, and the exit status.
With byte-mode pipes the captured standard output is a bytes object; the
field is kept at type `PyStrOrBytes` so that the source's
`isinstance(stdout, str)` branch (line 153) remains represented. -/
structure ProcResult where
  stdout : PyStrOrBytes
  stderr : List Nat
  returncode : Int
deriving DecidableEq

/-- Source lines 153-156: the decode step applied to the captured standard
output. When the output is a `str` and the encoding is truthy the code calls
`stdout.decode(encoding)`, which raises `AttributeError` in Python 3 (`str`
has no `decode` method); otherwise it calls `tUoB3(stdout)` with `tUoB3`'s
default encoding `'utf-8'`. -/
def TreeTagger.tagDecode (tt : TreeTagger) (stdout : PyStrOrBytes) :
    Except PyError (List Char) :=
  match stdout with
  | PyStrOrBytes.str s =>
    if tt.encoding = [] then tUoB3 (PyStrOrBytes.str s) "utf-8".toList
    else Except.error PyError.attributeError
  | PyStrOrBytes.bytes b => tUoB3 (PyStrOrBytes.bytes b) "utf-8".toList

/-- Source lines 159-164: strip the decoded output, split it on newlines,
and split each line on tabs, collecting the per-line field lists in order. -/
def tagRecords (s : List Char) : List (List (List Char)) :=
  (pySplit '\n' (pyStrip s)).map (fun w => pySplit '\t' w)

/-- Source lines 123-164 (`TreeTagger.tag`): encode the input, spawn the
child via `proc` with the spawn arguments of lines 139-144, write the
encoded bytes to its standard input, and on a zero exit status decode and
parse the captured standard output; on a non-zero exit status print the
captured standard error and raise `OSError` (lines 148-151). A string
payload reaching `communicate` with byte-mode pipes raises `TypeError`
(that path is unreachable from a validly constructed adapter, whose
encoding is never empty). -/
def TreeTagger.tag (tt : TreeTagger) (proc : SpawnCall → List Nat → ProcResult)
    (sentences : PyInput) : Except PyError (List (List (List Char))) :=
  match tt.tagEncoded sentences with
  | Except.error e => Except.error e
  | Except.ok (PyStrOrBytes.str _) => Except.error PyError.typeError
  | Except.ok (PyStrOrBytes.bytes payload) =>
    if (proc tt.tagSpawn payload).returncode ≠ 0 then
      Except.error (PyError.oSError (proc tt.tagSpawn payload).stderr)
    else
      match tt.tagDecode (proc tt.tagSpawn payload).stdout with
      | Except.error e => Except.error e
      | Except.ok treetagger_output => Except.ok (tagRecords treetagger_output)

/-- The effect of one `tag` call on the adapter object itself, by explicit
state passing: the method body (source lines 123-164) contains no assignment
to any attribute of `self`, so the post-state of the receiver is its
pre-state, returned here alongside the call's result. -/
def TreeTagger.tagMethod (tt : TreeTagger) (proc : SpawnCall → List Nat → ProcResult)
    (sentences : PyInput) :
    TreeTagger × Except PyError (List (List (List Char))) :=
  (tt, tt.tag proc sentences)

/-! ### Auxiliary predicates and spec-side comparison definitions -/

/-- A well-behaved output line: non-empty, free of newlines, and beginning
and ending with a non-whitespace character (so `str.strip` of the whole
output cannot eat into it). -/
def goodLine (l : List Char) : Bool :=
  (match l.head? with
   | some c => !isPySpace c
   | none => false) &&
  (match l.reverse.head? with
   | some d => !isPySpace d
   | none => false) &&
  l.all (fun x => decide (x ≠ '\n'))

/-- Spec-side reading of the record-splitting step, for comparison with
`tagRecords`: the spec says the decoded output is split on newline
boundaries after "trimming a single trailing newline" — remove exactly one
trailing newline and nothing else. -/
def specTrimOneNewline (s : List Char) : List Char :=
  match s.reverse with
  | '\n' :: r => r.reverse
  | _ => s

/-- Spec-side reading of the whole parsing step (trim one trailing newline,
split on newlines, split each line on tabs), for comparison with
`tagRecords`. -/
def specRecords (s : List Char) : List (List (List Char)) :=
  (pySplit '\n' (specTrimOneNewline s)).map (fun w => pySplit '\t' w)

/-! ### Concrete instances used to settle the claims on explicit inputs -/

/-- An adapter as constructed with `language='english', encoding='utf-8'`. -/
def ttEnglish : TreeTagger :=
  ⟨"/usr/local/bin/tree-tagger-english".toList, "utf-8".toList, none⟩

/-- An adapter as constructed with `language='latin', encoding='latin-1'`. -/
def ttLatin : TreeTagger :=
  ⟨"/usr/local/bin/tree-tagger-latin".toList, "latin-1".toList, none⟩

/-- An adapter constructed with an abbreviation list configured. -/
def ttGermanAbbr : TreeTagger :=
  ⟨"/usr/local/bin/tree-tagger-german".toList, "utf-8".toList,
    some "/home/user/abbr.txt".toList⟩

/-- A child process that exits 0 with standard output `b'\xc3\xa9'` (the
utf-8 encoding of `é`, which latin-1 reads as `Ã©`). -/
def procLatinBytes : SpawnCall → List Nat → ProcResult :=
  fun _ _ => ⟨PyStrOrBytes.bytes [195, 169], [], 0⟩

/-- A child process that exits 0 with standard output `b' a\n\n'`. -/
def procSpaceA : SpawnCall → List Nat → ProcResult :=
  fun _ _ => ⟨PyStrOrBytes.bytes [32, 97, 10, 10], [], 0⟩

/-- A child process that exits 0 with standard output `b'\ta\n'`. -/
def procTabA : SpawnCall → List Nat → ProcResult :=
  fun _ _ => ⟨PyStrOrBytes.bytes [9, 97, 10], [], 0⟩

/-- A child process that echoes one (empty) output line per input line:
on the two-token input `['', '']` it emits `b'\n\n'` and exits 0. -/
def procTwoEmptyLines : SpawnCall → List Nat → ProcResult :=
  fun _ _ => ⟨PyStrOrBytes.bytes [10, 10], [], 0⟩

/-- A child process that exits 0 with empty standard output. -/
def procEmptyOut : SpawnCall → List Nat → ProcResult :=
  fun _ _ => ⟨PyStrOrBytes.bytes [], [], 0⟩

/-- A child process that exits 1 with standard-error bytes `b'e'`. -/
def procFailing : SpawnCall → List Nat → ProcResult :=
  fun _ _ => ⟨PyStrOrBytes.bytes [], [101], 1⟩

/-- The stub tagger line for a token: `<token>\tXX\t<token>`. -/
def stubEcho : List Char → List Char :=
  fun t => t ++ '\t' :: 'X' :: 'X' :: '\t' :: t

/-- The token list of the spec's round-trip example, shortened. -/
def tokensWhatIs : List (List Char) := ["What".toList, "is".toList]

/-- A child process behaving as the spec's stub binary on `tokensWhatIs`:
one output line per input token, each `<token>\tXX\t<token>`, exit 0. -/
def procEchoWhatIs : SpawnCall → List Nat → ProcResult :=
  fun _ _ =>
    ⟨PyStrOrBytes.bytes (utf8Encode (pyJoin '\n' (tokensWhatIs.map stubEcho) ++ ['\n'])),
      [], 0⟩

/-! ### Helper lemmas about the Python string primitives -/

/-- Python `split` never returns an empty list of pieces. -/
theorem pySplit_ne_nil (sep : Char) (s : List Char) : pySplit sep s ≠ [] := by
  cases s with
  | nil => simp [pySplit]
  | cons c rest =>
    simp only [pySplit]
    by_cases h : c = sep
    · simp [h]
    · rw [if_neg h]
      cases hr : pySplit sep rest <;> simp

/-- The number of pieces `split` produces is the separator count plus one. -/
theorem pySplit_length (sep : Char) (s : List Char) :
    (pySplit sep s).length = s.count sep + 1 := by
  induction s with
  | nil => simp [pySplit]
  | cons c rest ih =>
    simp only [pySplit]
    by_cases h : c = sep
    · subst h
      simp [List.count_cons, ih]
    · rw [if_neg h]
      cases hr : pySplit sep rest with
      | nil => exact absurd hr (pySplit_ne_nil sep rest)
      | cons hh tl =>
        have hlen : (hh :: tl).length = rest.count sep + 1 := by rw [← hr]; exact ih
        show ((c :: hh) :: tl).length = (c :: rest).count sep + 1
        rw [List.count_cons_of_ne (Ne.symm h)]
        simpa using hlen

/-- Splitting a string that does not contain the separator yields the string
as the single piece. -/
theorem pySplit_of_not_mem (sep : Char) (s : List Char) (h : sep ∉ s) :
    pySplit sep s = [s] := by
  induction s with
  | nil => simp [pySplit]
  | cons c rest ih =>
    have hc : ¬(c = sep) := fun e => h (by simp [e])
    have hrest : sep ∉ rest := fun hm => h (List.mem_cons_of_mem _ hm)
    simp only [pySplit, if_neg hc, ih hrest]

/-- Splitting `x ++ sep :: t` when `x` is separator-free peels off `x` as the
first piece. -/
theorem pySplit_append (sep : Char) (x t : List Char) (h : sep ∉ x) :
    pySplit sep (x ++ sep :: t) = x :: pySplit sep t := by
  induction x with
  | nil => simp [pySplit]
  | cons c x' ih =>
    have hc : ¬(c = sep) := fun e => h (by simp [e])
    have hx : sep ∉ x' := fun hm => h (List.mem_cons_of_mem _ hm)
    show pySplit sep (c :: (x' ++ sep :: t)) = _
    simp only [pySplit, if_neg hc]
    rw [ih hx]

/-- Splitting undoes joining, for a non-empty list of separator-free pieces. -/
theorem pySplit_pyJoin (sep : Char) (lines : List (List Char)) (hne : lines ≠ [])
    (h : ∀ l ∈ lines, sep ∉ l) : pySplit sep (pyJoin sep lines) = lines := by
  induction lines with
  | nil => exact absurd rfl hne
  | cons x ys ih =>
    cases ys with
    | nil => simpa [pyJoin] using pySplit_of_not_mem sep x (h x (by simp))
    | cons y ys' =>
      simp only [pyJoin]
      rw [pySplit_append sep x _ (h x (by simp))]
      rw [ih (by simp) (fun l hl => h l (by simp [hl]))]

/-- `strip` removes a (possibly empty) all-whitespace prefix and suffix and
nothing else. -/
theorem pyStrip_decomp (s : List Char) :
    ∃ pre post, s = pre ++ pyStrip s ++ post ∧
      (∀ c ∈ pre, isPySpace c = true) ∧ (∀ c ∈ post, isPySpace c = true) := by
  refine ⟨s.takeWhile isPySpace,
    ((s.dropWhile isPySpace).reverse.takeWhile isPySpace).reverse, ?_, ?_, ?_⟩
  · have h1 : s.takeWhile isPySpace ++ s.dropWhile isPySpace = s :=
      List.takeWhile_append_dropWhile isPySpace s
    have h2 : (s.dropWhile isPySpace).reverse.takeWhile isPySpace ++
        (s.dropWhile isPySpace).reverse.dropWhile isPySpace =
        (s.dropWhile isPySpace).reverse :=
      List.takeWhile_append_dropWhile isPySpace (s.dropWhile isPySpace).reverse
    have h3 := congrArg List.reverse h2
    simp only [List.reverse_append, List.reverse_reverse] at h3
    show s = s.takeWhile isPySpace ++
      ((s.dropWhile isPySpace).reverse.dropWhile isPySpace).reverse ++
      ((s.dropWhile isPySpace).reverse.takeWhile isPySpace).reverse
    rw [List.append_assoc, h3, h1]
  · intro c hc
    exact List.mem_takeWhile_imp hc
  · intro c hc
    rw [List.mem_reverse] at hc
    exact List.mem_takeWhile_imp hc

/-- A good line is non-empty with a non-whitespace head. -/
theorem goodLine_head (l : List Char) (h : goodLine l = true) :
    ∃ c t, l = c :: t ∧ isPySpace c = false := by
  cases l with
  | nil => simp [goodLine] at h
  | cons c t =>
    refine ⟨c, t, rfl, ?_⟩
    simp only [goodLine, List.head?_cons, Bool.and_eq_true] at h
    have := h.1.1
    cases hc : isPySpace c <;> simp_all

/-- A good line reversed is non-empty with a non-whitespace head (i.e. its
last character is not whitespace). -/
theorem goodLine_rev (l : List Char) (h : goodLine l = true) :
    ∃ d u, l.reverse = d :: u ∧ isPySpace d = false := by
  cases hr : l.reverse with
  | nil =>
    have : l = [] := by simpa using congrArg List.reverse hr
    simp [this, goodLine] at h
  | cons d u =>
    refine ⟨d, u, rfl, ?_⟩
    simp only [goodLine, hr, List.head?_cons, Bool.and_eq_true] at h
    have := h.1.2
    cases hd : isPySpace d <;> simp_all

/-- A good line contains no newline character. -/
theorem goodLine_no_nl (l : List Char) (h : goodLine l = true) : '\n' ∉ l := by
  simp only [goodLine, Bool.and_eq_true, List.all_eq_true] at h
  intro hm
  have := h.2 '\n' hm
  simp at this

/-- Joining starting from `x` begins with `x`. -/
theorem pyJoin_cons (sep : Char) (x : List Char) (ys : List (List Char)) :
    ∃ r, pyJoin sep (x :: ys) = x ++ r := by
  cases ys with
  | nil => exact ⟨[], by simp [pyJoin]⟩
  | cons y ys' => exact ⟨sep :: pyJoin sep (y :: ys'), rfl⟩

/-- The reverse of a join of good lines starts with the (non-whitespace)
last character of the last line. -/
theorem pyJoin_rev_head (sep : Char) (lines : List (List Char)) (hne : lines ≠ [])
    (h : ∀ l ∈ lines, goodLine l = true) :
    ∃ d u, (pyJoin sep lines).reverse = d :: u ∧ isPySpace d = false := by
  induction lines with
  | nil => exact absurd rfl hne
  | cons x ys ih =>
    cases ys with
    | nil => simpa [pyJoin] using goodLine_rev x (h x (by simp))
    | cons y ys' =>
      obtain ⟨d, u, hdu, hd⟩ := ih (by simp) (fun l hl => h l (by simp [hl]))
      refine ⟨d, u ++ sep :: x.reverse, ?_, hd⟩
      show (pyJoin sep (x :: y :: ys')).reverse = _
      simp only [pyJoin, List.reverse_append, List.reverse_cons]
      rw [hdu]
      simp

/-- `strip` leaves a newline-terminated join of good lines exactly at the
join: the single trailing newline goes, and nothing of the lines is
touched. -/
theorem pyStrip_good_join (lines : List (List Char)) (hne : lines ≠ [])
    (h : ∀ l ∈ lines, goodLine l = true) :
    pyStrip (pyJoin '\n' lines ++ ['\n']) = pyJoin '\n' lines := by
  obtain ⟨x, ys, rfl⟩ : ∃ x ys, lines = x :: ys := by
    cases lines with
    | nil => exact absurd rfl hne
    | cons a b => exact ⟨a, b, rfl⟩
  obtain ⟨c, t, hct, hc⟩ := goodLine_head x (h x (by simp))
  obtain ⟨r, hr⟩ := pyJoin_cons '\n' x ys
  obtain ⟨d, u, hdu, hd⟩ := pyJoin_rev_head '\n' (x :: ys) (by simp) h
  have h1 : pyJoin '\n' (x :: ys) ++ ['\n'] = c :: (t ++ r ++ ['\n']) := by
    rw [hr, hct]
    simp
  have h2 : (pyJoin '\n' (x :: ys) ++ ['\n']).reverse =
      '\n' :: (pyJoin '\n' (x :: ys)).reverse := by simp
  unfold pyStrip
  rw [h1, List.dropWhile_cons_of_neg (by simp [hc]), ← h1, h2,
    List.dropWhile_cons_of_pos (by decide), hdu,
    List.dropWhile_cons_of_neg (by simp [hd]), ← hdu]
  simp

/-- `getD` below the length commutes with `map`, for any defaults. -/
theorem getD_map_len {α β : Type} (f : α → β) (l : List α) (i : Nat) (d : α)
    (dd : β) (h : i < l.length) : (l.map f).getD i dd = f (l.getD i d) := by
  induction l generalizing i with
  | nil => simp at h
  | cons a as ih =>
    cases i with
    | zero => simp
    | succ n =>
      simp only [List.map_cons, List.getD_cons_succ]
      exact ih n (by simpa using h)

/-! ### Helper lemmas about `tag` -/

/-- A successful run: with a zero exit status and a standard output of bytes
that utf-8-decode to `s`, `tag` returns the parsed records of `s`. -/
theorem tag_eq_of_success (tt : TreeTagger) (proc : SpawnCall → List Nat → ProcResult)
    (input : PyInput) (payload bs : List Nat) (s : List Char)
    (hp : tt.tagEncoded input = Except.ok (PyStrOrBytes.bytes payload))
    (hs : (proc tt.tagSpawn payload).stdout = PyStrOrBytes.bytes bs)
    (h0 : (proc tt.tagSpawn payload).returncode = 0)
    (hd : utf8Decode bs = some s) :
    tt.tag proc input = Except.ok (tagRecords s) := by
  unfold TreeTagger.tag
  rw [hp]
  simp only [h0]
  rw [if_neg (by simp [h0])]
  rw [hs]
  simp only [TreeTagger.tagDecode, tUoB3, pyDecode, if_pos rfl, hd]
  simp

/-- The decode step never produces the process-failure error. -/
theorem tagDecode_not_oSError (tt : TreeTagger) (so : PyStrOrBytes) (e : List Nat) :
    tt.tagDecode so ≠ Except.error (PyError.oSError e) := by
  cases so with
  | str t =>
    unfold TreeTagger.tagDecode
    by_cases h : tt.encoding = []
    · simp [h, tUoB3]
    · simp [h]
  | bytes b =>
    simp only [TreeTagger.tagDecode, tUoB3, pyDecode, if_pos rfl]
    cases utf8Decode b <;> simp

/-- Once the encoded payload is known, `tag` reduces to the run of the child
on that payload. -/
theorem tag_bytes_eq (tt : TreeTagger) (proc : SpawnCall → List Nat → ProcResult)
    (input : PyInput) (payload : List Nat)
    (hp : tt.tagEncoded input = Except.ok (PyStrOrBytes.bytes payload)) :
    tt.tag proc input =
      if (proc tt.tagSpawn payload).returncode ≠ 0 then
        Except.error (PyError.oSError (proc tt.tagSpawn payload).stderr)
      else
        match tt.tagDecode (proc tt.tagSpawn payload).stdout with
        | Except.error e => Except.error e
        | Except.ok o => Except.ok (tagRecords o) := by
  unfold TreeTagger.tag
  rw [hp]

/-! ### Claims -/

/-- C1: the claim says `tag()` decodes raw-bytes standard output with the
encoding configured at construction. The code does not: line 153's
`isinstance(stdout, str)` guard is dead in Python 3 (pipe output is always
bytes), so line 156 always decodes via `tUoB3(stdout)` with its hard-coded
utf-8 default. Evaluated here at the failing input: an adapter configured
with latin-1 whose child emits `b'\xc3\xa9'` — the call returns the utf-8
reading `é`, while the configured latin-1 decode of the same bytes is `Ã©`. -/
theorem c1_decode_uses_fixed_utf8 :
    ttLatin.encoding = "latin-1".toList ∧
    ttLatin.tag procLatinBytes (PyInput.raw []) = Except.ok [[['é']]] ∧
    pyDecode "utf-8".toList [195, 169] = Except.ok ['é'] ∧
    pyDecode ttLatin.encoding [195, 169] = Except.ok ['Ã', '©'] ∧
    ([[['é']]] : List (List (List Char))) ≠ [[['Ã', '©']]] :=
  ⟨rfl, by decide, by decide, by decide, by decide⟩

/-- C2 counterexample: the claim says `tag()` removes exactly one trailing
newline and nothing else, preserving leading whitespace of the first line
and empty lines from consecutive trailing newlines. On decoded output
`' a\n\n'` the code (which calls `str.strip()`) returns `[['a']]`, while
the claimed behavior (`specRecords`) yields `[[' a'], ['']]`. -/
theorem c2_counterexample :
    ttEnglish.tag procSpaceA (PyInput.raw []) = Except.ok [[['a']]] ∧
    utf8Decode [32, 97, 10, 10] = some [' ', 'a', '\n', '\n'] ∧
    specRecords [' ', 'a', '\n', '\n'] = [[[' ', 'a']], [[]]] ∧
    ([[['a']]] : List (List (List Char))) ≠ [[[' ', 'a']], [[]]] :=
  ⟨by decide, by decide, by decide, by decide⟩

/-- C2 (amended): for every decoded subprocess output string, `tag()` strips
ALL leading and trailing whitespace (Python `str.strip`) — not just one
trailing newline — and then splits on newline boundaries; equivalently, the
records are the tab-splits of the newline-split of `pyStrip s`, and what
`strip` removes is exactly an all-whitespace prefix and an all-whitespace
suffix of the decoded output (so interior empty lines survive, but leading
whitespace of the first line, trailing whitespace of the last line, and
empty lines from consecutive trailing newlines do not). -/
theorem c2_amended_strip_split (tt : TreeTagger)
    (proc : SpawnCall → List Nat → ProcResult) (input : PyInput)
    (payload bs : List Nat) (s : List Char)
    (hp : tt.tagEncoded input = Except.ok (PyStrOrBytes.bytes payload))
    (hs : (proc tt.tagSpawn payload).stdout = PyStrOrBytes.bytes bs)
    (h0 : (proc tt.tagSpawn payload).returncode = 0)
    (hd : utf8Decode bs = some s) :
    tt.tag proc input =
      Except.ok ((pySplit '\n' (pyStrip s)).map (fun w => pySplit '\t' w)) ∧
    ∃ pre post, s = pre ++ pyStrip s ++ post ∧
      (∀ c ∈ pre, isPySpace c = true) ∧ (∀ c ∈ post, isPySpace c = true) :=
  ⟨tag_eq_of_success tt proc input payload bs s hp hs h0 hd, pyStrip_decomp s⟩

/-- C2 witness: the amended statement at the concrete run of
`c2_counterexample` (adapter `ttEnglish`, output bytes `b' a\n\n'`). -/
theorem c2_amended_strip_split_witness :
    ttEnglish.tag procSpaceA (PyInput.raw []) =
      Except.ok ((pySplit '\n' (pyStrip [' ', 'a', '\n', '\n'])).map
        (fun w => pySplit '\t' w)) ∧
    ∃ pre post, [' ', 'a', '\n', '\n'] = pre ++ pyStrip [' ', 'a', '\n', '\n'] ++ post ∧
      (∀ c ∈ pre, isPySpace c = true) ∧ (∀ c ∈ post, isPySpace c = true) :=
  c2_amended_strip_split ttEnglish procSpaceA (PyInput.raw []) []
    [32, 97, 10, 10] [' ', 'a', '\n', '\n'] (by decide) rfl rfl (by decide)

/-- C3 counterexample: the claim says each record has exactly as many fields
as the corresponding raw output line has tab-separated fields, including a
first line that begins with a tab. On decoded output `'\ta\n'`, whose first
raw line `'\ta'` has two tab-separated fields, the code returns the single
record `['a']` with one field (the leading tab was removed by `strip`). -/
theorem c3_counterexample :
    ttEnglish.tag procTabA (PyInput.raw []) = Except.ok [[['a']]] ∧
    utf8Decode [9, 97, 10] = some ['\t', 'a', '\n'] ∧
    pySplit '\n' ['\t', 'a', '\n'] = [['\t', 'a'], []] ∧
    (pySplit '\t' ['\t', 'a']).length = 2 ∧
    ([['a']] : List (List Char)).length ≠ (pySplit '\t' ['\t', 'a']).length :=
  ⟨by decide, by decide, by decide, by decide, by decide⟩

/-- C3 (amended): field counts are preserved relative to the lines of the
whitespace-STRIPPED decoded output, not the raw lines: each returned record
has exactly as many fields as the corresponding line of
`pySplit '\n' (pyStrip s)` has tab-separated fields (tab count plus one) —
so no field of a stripped line is dropped or merged, but a first raw line
beginning with whitespace (including a tab) or a last raw line ending with
whitespace loses those characters to `strip` before splitting. -/
theorem c3_amended_field_counts (tt : TreeTagger)
    (proc : SpawnCall → List Nat → ProcResult) (input : PyInput)
    (payload bs : List Nat) (s : List Char)
    (hp : tt.tagEncoded input = Except.ok (PyStrOrBytes.bytes payload))
    (hs : (proc tt.tagSpawn payload).stdout = PyStrOrBytes.bytes bs)
    (h0 : (proc tt.tagSpawn payload).returncode = 0)
    (hd : utf8Decode bs = some s) :
    tt.tag proc input = Except.ok (tagRecords s) ∧
    (tagRecords s).length = (pySplit '\n' (pyStrip s)).length ∧
    ∀ i, i < (pySplit '\n' (pyStrip s)).length →
      ((tagRecords s).getD i []).length =
        ((pySplit '\n' (pyStrip s)).getD i []).count '\t' + 1 := by
  refine ⟨tag_eq_of_success tt proc input payload bs s hp hs h0 hd, by
    simp [tagRecords], ?_⟩
  intro i hi
  have h1 : (tagRecords s).getD i [] =
      pySplit '\t' ((pySplit '\n' (pyStrip s)).getD i []) :=
    getD_map_len (fun w => pySplit '\t' w) (pySplit '\n' (pyStrip s)) i [] [] hi
  rw [h1, pySplit_length]

/-- C3 witness: the amended statement at the concrete run of
`c3_counterexample` (adapter `ttEnglish`, output bytes `b'\ta\n'`). -/
theorem c3_amended_field_counts_witness :
    ttEnglish.tag procTabA (PyInput.raw []) =
      Except.ok (tagRecords ['\t', 'a', '\n']) ∧
    (tagRecords ['\t', 'a', '\n']).length =
      (pySplit '\n' (pyStrip ['\t', 'a', '\n'])).length ∧
    ∀ i, i < (pySplit '\n' (pyStrip ['\t', 'a', '\n'])).length →
      ((tagRecords ['\t', 'a', '\n']).getD i []).length =
        ((pySplit '\n' (pyStrip ['\t', 'a', '\n'])).getD i []).count '\t' + 1 :=
  c3_amended_field_counts ttEnglish procTabA (PyInput.raw []) []
    [9, 97, 10] ['\t', 'a', '\n'] (by decide) rfl rfl (by decide)

/-- C4 counterexample: the claim says that for EVERY list of N newline-free
tokens, a binary emitting one output line per input line makes `tag()`
return exactly N records. With the two newline-free tokens `['', '']` and a
stub that echoes each token as its line (output `b'\n\n'`, one line per
input line), `str.strip()` collapses the output to the empty string and
`tag()` returns one record, not two. -/
theorem c4_counterexample :
    ttEnglish.tag procTwoEmptyLines (PyInput.tokens [[], []]) = Except.ok [[[]]] ∧
    utf8Decode [10, 10] = some ['\n', '\n'] ∧
    ([[[]]] : List (List (List Char))).length ≠ ([([] : List Char), []]).length :=
  ⟨by decide, by decide, by decide⟩

/-- C4 (amended): the round trip does hold when every emitted line is
non-empty, newline-free, and begins and ends with a non-whitespace
character (`goodLine`), so that the final `strip` removes only the
terminating newline: if the child exits 0 and its decoded output is one
`goodLine` line per input token, each terminated by a newline, then `tag()`
returns exactly one record per token, in input order, the record of token
`t` being the tab-split of its line. -/
theorem c4_amended_roundtrip (tt : TreeTagger)
    (proc : SpawnCall → List Nat → ProcResult) (tokens : List (List Char))
    (stub : List Char → List Char) (payload : List Nat)
    (hne : tokens ≠ [])
    (hnl : ∀ t ∈ tokens, '\n' ∉ t)
    (hgood : ∀ t ∈ tokens, goodLine (stub t) = true)
    (hp : tt.tagEncoded (PyInput.tokens tokens) =
      Except.ok (PyStrOrBytes.bytes payload))
    (h0 : (proc tt.tagSpawn payload).returncode = 0)
    (hout : ∃ bs, (proc tt.tagSpawn payload).stdout = PyStrOrBytes.bytes bs ∧
      utf8Decode bs = some (pyJoin '\n' (tokens.map stub) ++ ['\n'])) :
    tt.tag proc (PyInput.tokens tokens) =
      Except.ok ((tokens.map stub).map (fun l => pySplit '\t' l)) ∧
    ((tokens.map stub).map (fun l => pySplit '\t' l)).length = tokens.length := by
  obtain ⟨bs, hsb, hdb⟩ := hout
  have hlines_ne : tokens.map stub ≠ [] := by
    intro hcontra
    exact hne (List.map_eq_nil_iff.mp hcontra)
  have hlines_good : ∀ l ∈ tokens.map stub, goodLine l = true := by
    intro l hl
    obtain ⟨t, ht, rfl⟩ := List.mem_map.mp hl
    exact hgood t ht
  have hstrip : pyStrip (pyJoin '\n' (tokens.map stub) ++ ['\n']) =
      pyJoin '\n' (tokens.map stub) :=
    pyStrip_good_join (tokens.map stub) hlines_ne hlines_good
  have hsplit : pySplit '\n' (pyJoin '\n' (tokens.map stub)) = tokens.map stub :=
    pySplit_pyJoin '\n' (tokens.map stub) hlines_ne
      (fun l hl => goodLine_no_nl l (hlines_good l hl))
  have htag := tag_eq_of_success tt proc (PyInput.tokens tokens) payload bs
    (pyJoin '\n' (tokens.map stub) ++ ['\n']) hp hsb h0 hdb
  constructor
  · rw [htag]
    unfold tagRecords
    rw [hstrip, hsplit]
  · simp

/-- C4 witness: the amended round trip at the spec's own example shape —
tokens `['What', 'is']` with the stub emitting `<token>\tXX\t<token>` per
line. -/
theorem c4_amended_roundtrip_witness :
    ttEnglish.tag procEchoWhatIs (PyInput.tokens tokensWhatIs) =
      Except.ok ((tokensWhatIs.map stubEcho).map (fun l => pySplit '\t' l)) ∧
    ((tokensWhatIs.map stubEcho).map (fun l => pySplit '\t' l)).length =
      tokensWhatIs.length :=
  c4_amended_roundtrip ttEnglish procEchoWhatIs tokensWhatIs stubEcho
    (utf8Encode (pyJoin '\n' tokensWhatIs)) (by decide) (by decide) (by decide)
    (by decide) rfl ⟨utf8Encode (pyJoin '\n' (tokensWhatIs.map stubEcho) ++ ['\n']),
      rfl, by decide⟩

/-- C5: for every (language, encoding) pair not in the fixed table — the
encoding is not a key, or the language is absent from the list registered
under it — construction fails with the LookupError-class error, for every
possible binary-resolution environment `fb` (so regardless of whether the
binary is present); construction never consults a child process at all. -/
theorem c5_invalid_pair_raises
    (fb : List Char → Option (List Char) → Option (List Char))
    (path_to_home : Option (List Char)) (language encoding : List Char)
    (abbr : Option (List Char))
    (h : ∀ langs, treetagger_languages encoding = some langs → language ∉ langs) :
    TreeTagger.init fb path_to_home language encoding abbr =
      Except.error PyError.lookupError := by
  unfold TreeTagger.init
  cases ht : treetagger_languages encoding with
  | none => rfl
  | some langs =>
    have hnot := h langs ht
    simp [hnot]

/-- C5 witness: the spec's own example — language `klingon` with encoding
`utf-8` is rejected even though the binary resolver would succeed. -/
theorem c5_invalid_pair_raises_witness :
    TreeTagger.init (fun n _ => some n) none "klingon".toList "utf-8".toList none =
      Except.error PyError.lookupError :=
  c5_invalid_pair_raises (fun n _ => some n) none "klingon".toList "utf-8".toList
    none (by
      intro langs hl
      have hv : treetagger_languages "utf-8".toList =
          some (["bulgarian", "dutch", "english", "estonian", "finnish", "french",
            "galician", "german", "italian", "polish", "russian", "slovak",
            "slovak2", "spanish"].map String.toList) := by decide
      rw [hv] at hl
      cases hl
      decide)

/-- C6: whenever the encoded payload is ready (so the call reaches the child
process), a non-zero exit status makes `tag()` raise the OSError-class
error carrying the captured standard-error diagnostics — never returning a
record list — and a zero exit status never raises that error. -/
theorem c6_nonzero_exit_raises (tt : TreeTagger)
    (proc : SpawnCall → List Nat → ProcResult) (input : PyInput)
    (payload : List Nat)
    (hp : tt.tagEncoded input = Except.ok (PyStrOrBytes.bytes payload)) :
    ((proc tt.tagSpawn payload).returncode ≠ 0 →
      tt.tag proc input =
        Except.error (PyError.oSError (proc tt.tagSpawn payload).stderr)) ∧
    ((proc tt.tagSpawn payload).returncode = 0 →
      ∀ e, tt.tag proc input ≠ Except.error (PyError.oSError e)) := by
  constructor
  · intro hrc
    rw [tag_bytes_eq tt proc input payload hp, if_pos hrc]
  · intro hrc e hcontra
    rw [tag_bytes_eq tt proc input payload hp, if_neg (by simp [hrc])] at hcontra
    cases hd : tt.tagDecode (proc tt.tagSpawn payload).stdout with
    | error e2 =>
      rw [hd] at hcontra
      injection hcontra with h2
      rw [h2] at hd
      exact tagDecode_not_oSError tt _ e hd
    | ok out =>
      rw [hd] at hcontra
      exact Except.noConfusion hcontra

/-- C6 witness: at a child that exits 1 with standard error `b'e'`, the call
fails with the OSError-class error carrying those bytes; the zero-status arm
holds vacuously there. -/
theorem c6_nonzero_exit_raises_witness :
    ((procFailing ttEnglish.tagSpawn (utf8Encode "hi".toList)).returncode ≠ 0 →
      ttEnglish.tag procFailing (PyInput.text "hi".toList) =
        Except.error (PyError.oSError
          (procFailing ttEnglish.tagSpawn (utf8Encode "hi".toList)).stderr)) ∧
    ((procFailing ttEnglish.tagSpawn (utf8Encode "hi".toList)).returncode = 0 →
      ∀ e, ttEnglish.tag procFailing (PyInput.text "hi".toList) ≠
        Except.error (PyError.oSError e)) :=
  c6_nonzero_exit_raises ttEnglish procFailing (PyInput.text "hi".toList)
    (utf8Encode "hi".toList) (by decide)

/-- C7: every `tag()` call spawns the child without shell interpretation,
with all three standard streams wired as pipes, and with argument list
exactly `[binary]` when no abbreviation list was configured and exactly
`[binary, '-a', abbreviation_list]` when one was; moreover the call consults
the child's behavior only at that one spawn, so two environments agreeing
there make `tag()` agree. -/
theorem c7_spawn_arguments (tt : TreeTagger) :
    tt.tagSpawn.shell = false ∧
    tt.tagSpawn.stdin = StdWiring.pipe ∧
    tt.tagSpawn.stdout = StdWiring.pipe ∧
    tt.tagSpawn.stderr = StdWiring.pipe ∧
    (tt.abbr_list = none → tt.tagSpawn.args = [tt.treetagger_bin]) ∧
    (∀ a, tt.abbr_list = some a →
      tt.tagSpawn.args = [tt.treetagger_bin, "-a".toList, a]) ∧
    (∀ proc1 proc2 input,
      (∀ inp, proc1 tt.tagSpawn inp = proc2 tt.tagSpawn inp) →
      tt.tag proc1 input = tt.tag proc2 input) := by
  refine ⟨?_, ?_, ?_, ?_, ?_, ?_, ?_⟩
  · cases h : tt.abbr_list <;> simp [TreeTagger.tagSpawn, h]
  · cases h : tt.abbr_list <;> simp [TreeTagger.tagSpawn, h]
  · cases h : tt.abbr_list <;> simp [TreeTagger.tagSpawn, h]
  · cases h : tt.abbr_list <;> simp [TreeTagger.tagSpawn, h]
  · intro h
    simp [TreeTagger.tagSpawn, h]
  · intro a h
    simp [TreeTagger.tagSpawn, h]
  · intro proc1 proc2 input h
    cases he : tt.tagEncoded input with
    | error e =>
      unfold TreeTagger.tag
      rw [he]
    | ok v =>
      cases v with
      | str s =>
        unfold TreeTagger.tag
        rw [he]
      | bytes payload =>
        rw [tag_bytes_eq tt proc1 input payload he,
          tag_bytes_eq tt proc2 input payload he, h payload]

/-- C7 witness: the spawn-argument statement at a concrete adapter with an
abbreviation list configured. -/
theorem c7_spawn_arguments_witness :
    ttGermanAbbr.tagSpawn.shell = false ∧
    ttGermanAbbr.tagSpawn.stdin = StdWiring.pipe ∧
    ttGermanAbbr.tagSpawn.stdout = StdWiring.pipe ∧
    ttGermanAbbr.tagSpawn.stderr = StdWiring.pipe ∧
    (ttGermanAbbr.abbr_list = none →
      ttGermanAbbr.tagSpawn.args = [ttGermanAbbr.treetagger_bin]) ∧
    (∀ a, ttGermanAbbr.abbr_list = some a →
      ttGermanAbbr.tagSpawn.args = [ttGermanAbbr.treetagger_bin, "-a".toList, a]) ∧
    (∀ proc1 proc2 input,
      (∀ inp, proc1 ttGermanAbbr.tagSpawn inp = proc2 ttGermanAbbr.tagSpawn inp) →
      ttGermanAbbr.tag proc1 input = ttGermanAbbr.tag proc2 input) :=
  c7_spawn_arguments ttGermanAbbr

/-- C8: with a (truthy) configured encoding, the bytes handed to the child's
standard input are: for a list input, the tokens joined with single newline
separators and encoded with the configured encoding; for a single string,
that string encoded with the configured encoding; for an already-encoded
bytes input, the bytes unchanged. The final conjunct pins down that `tag`
writes exactly that payload: the call depends on the child's behavior only
at the computed payload. -/
theorem c8_input_encoding (tt : TreeTagger) (henc : tt.encoding ≠ []) :
    (∀ xs, tt.tagEncoded (PyInput.tokens xs) =
      (pyEncode tt.encoding (pyJoin '\n' xs)).map PyStrOrBytes.bytes) ∧
    (∀ s, tt.tagEncoded (PyInput.text s) =
      (pyEncode tt.encoding s).map PyStrOrBytes.bytes) ∧
    (∀ b, tt.tagEncoded (PyInput.raw b) = Except.ok (PyStrOrBytes.bytes b)) ∧
    (∀ input payload proc1 proc2,
      tt.tagEncoded input = Except.ok (PyStrOrBytes.bytes payload) →
      proc1 tt.tagSpawn payload = proc2 tt.tagSpawn payload →
      tt.tag proc1 input = tt.tag proc2 input) := by
  refine ⟨?_, ?_, ?_, ?_⟩
  · intro xs
    show (if tt.encoding = [] then Except.ok (PyStrOrBytes.str (pyJoin '\n' xs))
      else Except.map PyStrOrBytes.bytes (pyEncode tt.encoding (pyJoin '\n' xs))) = _
    rw [if_neg henc]
  · intro s
    show (if tt.encoding = [] then Except.ok (PyStrOrBytes.str s)
      else Except.map PyStrOrBytes.bytes (pyEncode tt.encoding s)) = _
    rw [if_neg henc]
  · intro b
    rfl
  · intro input payload proc1 proc2 hp hagree
    rw [tag_bytes_eq tt proc1 input payload hp,
      tag_bytes_eq tt proc2 input payload hp, hagree]

/-- C8 witness: the encoding statement at the concrete utf-8 adapter. -/
theorem c8_input_encoding_witness :
    (∀ xs, ttEnglish.tagEncoded (PyInput.tokens xs) =
      (pyEncode ttEnglish.encoding (pyJoin '\n' xs)).map PyStrOrBytes.bytes) ∧
    (∀ s, ttEnglish.tagEncoded (PyInput.text s) =
      (pyEncode ttEnglish.encoding s).map PyStrOrBytes.bytes) ∧
    (∀ b, ttEnglish.tagEncoded (PyInput.raw b) = Except.ok (PyStrOrBytes.bytes b)) ∧
    (∀ input payload proc1 proc2,
      ttEnglish.tagEncoded input = Except.ok (PyStrOrBytes.bytes payload) →
      proc1 ttEnglish.tagSpawn payload = proc2 ttEnglish.tagSpawn payload →
      ttEnglish.tag proc1 input = ttEnglish.tag proc2 input) :=
  c8_input_encoding ttEnglish (by decide)

/-- C9: a `tag()` call leaves every adapter field unchanged — the method body
assigns to no attribute of `self`, so with the method's effect on the
receiver made explicit (`tagMethod`), the post-state is the pre-state: the
resolved binary path, the configured encoding and the abbreviation-list path
all survive every call, and the call's result is exactly `tag`'s. -/
theorem c9_fields_immutable (tt : TreeTagger)
    (proc : SpawnCall → List Nat → ProcResult) (input : PyInput) :
    (tt.tagMethod proc input).1 = tt ∧
    (tt.tagMethod proc input).1.treetagger_bin = tt.treetagger_bin ∧
    (tt.tagMethod proc input).1.encoding = tt.encoding ∧
    (tt.tagMethod proc input).1.abbr_list = tt.abbr_list ∧
    (tt.tagMethod proc input).2 = tt.tag proc input :=
  ⟨rfl, rfl, rfl, rfl, rfl⟩

/-- C9 witness: the frame statement at a concrete adapter, child and input. -/
theorem c9_fields_immutable_witness :
    (ttLatin.tagMethod procEmptyOut (PyInput.raw [])).1 = ttLatin ∧
    (ttLatin.tagMethod procEmptyOut (PyInput.raw [])).1.treetagger_bin =
      ttLatin.treetagger_bin ∧
    (ttLatin.tagMethod procEmptyOut (PyInput.raw [])).1.encoding =
      ttLatin.encoding ∧
    (ttLatin.tagMethod procEmptyOut (PyInput.raw [])).1.abbr_list =
      ttLatin.abbr_list ∧
    (ttLatin.tagMethod procEmptyOut (PyInput.raw [])).2 =
      ttLatin.tag procEmptyOut (PyInput.raw []) :=
  c9_fields_immutable ttLatin procEmptyOut (PyInput.raw [])

/-- C10: a successful `tag()` call never returns an empty record list —
`split` always yields at least one piece — and on a child that exits 0 with
completely empty standard output the call returns the single record holding
one empty-string field, `[['']]`. -/
theorem c10_result_nonempty (tt : TreeTagger)
    (proc : SpawnCall → List Nat → ProcResult) (input : PyInput)
    (res : List (List (List Char)))
    (h : tt.tag proc input = Except.ok res) :
    res ≠ [] ∧
    tt.tag (fun _ _ => ⟨PyStrOrBytes.bytes [], [], 0⟩) input = Except.ok [[[]]] := by
  have hp : ∃ payload, tt.tagEncoded input = Except.ok (PyStrOrBytes.bytes payload) := by
    cases he : tt.tagEncoded input with
    | error e =>
      unfold TreeTagger.tag at h
      rw [he] at h
      exact Except.noConfusion h
    | ok v =>
      cases v with
      | str s =>
        unfold TreeTagger.tag at h
        rw [he] at h
        exact Except.noConfusion h
      | bytes payload => exact ⟨payload, rfl⟩
  obtain ⟨payload, hp⟩ := hp
  constructor
  · rw [tag_bytes_eq tt proc input payload hp] at h
    by_cases hrc : (proc tt.tagSpawn payload).returncode ≠ 0
    · rw [if_pos hrc] at h
      exact Except.noConfusion h
    · rw [if_neg hrc] at h
      cases hd : tt.tagDecode (proc tt.tagSpawn payload).stdout with
      | error e =>
        rw [hd] at h
        exact Except.noConfusion h
      | ok out =>
        rw [hd] at h
        injection h with h2
        rw [← h2]
        unfold tagRecords
        intro hcontra
        exact pySplit_ne_nil '\n' (pyStrip out) (List.map_eq_nil_iff.mp hcontra)
  · rw [tag_bytes_eq tt (fun _ _ => ⟨PyStrOrBytes.bytes [], [], 0⟩) input payload hp]
    rfl

/-- C10 witness: a successful call (empty child output on `ttEnglish`) whose
result is non-empty and equals `[['']]`. -/
theorem c10_result_nonempty_witness :
    ([[[]]] : List (List (List Char))) ≠ [] ∧
    ttEnglish.tag (fun _ _ => ⟨PyStrOrBytes.bytes [], [], 0⟩)
      (PyInput.text "hi".toList) = Except.ok [[[]]] :=
  c10_result_nonempty ttEnglish procEmptyOut (PyInput.text "hi".toList)
    [[[]]] (by decide)
